import Mathlib

/-!
Verification of `ossec_config_manager` (OSSECConfigManager / ActiveResponseManager).

The Python code manipulates an `xml.etree.ElementTree` document.  We embed the
document as a tree of elements (tag, text, ordered children); attributes and
tail text are never used by the code and are omitted.  Python exceptions are
modelled by `Option`/`Except` results (`none` / `.error` = the call raises).
-/

namespace OssecConfig

/-- An XML element: tag name, optional text, ordered children
(models `xml.etree.ElementTree.Element` as used by the code). -/
inductive Element where
  | mk (tag : String) (text : Option String) (children : List Element)

mutual
/-- Decidable structural equality (spelled out because `deriving` does not
handle the nested occurrence of `List Element`). -/
def Element.decEq : (a b : Element) → Decidable (a = b)
  | .mk t1 x1 c1, .mk t2 x2 c2 =>
    if h1 : t1 = t2 then
      if h2 : x1 = x2 then
        match decEqSiblings c1 c2 with
        | isTrue h3 => isTrue (by rw [h1, h2, h3])
        | isFalse h3 => isFalse (fun h => by injection h; contradiction)
      else isFalse (fun h => by injection h; contradiction)
    else isFalse (fun h => by injection h; contradiction)

/-- Decidable structural equality on sibling lists. -/
def decEqSiblings : (a b : List Element) → Decidable (a = b)
  | [], [] => isTrue rfl
  | [], _ :: _ => isFalse (by simp)
  | _ :: _, [] => isFalse (by simp)
  | a :: as, b :: bs =>
    match Element.decEq a b, decEqSiblings as bs with
    | isTrue h1, isTrue h2 => isTrue (by rw [h1, h2])
    | isFalse h1, _ => isFalse (fun h => by injection h; contradiction)
    | _, isFalse h2 => isFalse (fun h => by injection h; contradiction)
end

instance : DecidableEq Element := Element.decEq

def Element.tag : Element → String
  | .mk t _ _ => t

def Element.text : Element → Option String
  | .mk _ tx _ => tx

def Element.children : Element → List Element
  | .mk _ _ cs => cs

/-- `element.find(tag)`: the first direct child carrying the given tag. -/
def Element.findChild (e : Element) (t : String) : Option Element :=
  e.children.find? (fun c => c.tag == t)

mutual
/-- All proper descendants of an element in document order — `e.findall('.//*')`. -/
def Element.descendants : Element → List Element
  | .mk _ _ cs => descendantsOf cs

/-- All elements reachable from a list of sibling elements, in document
(preorder) order: each sibling followed by its own descendants. -/
def descendantsOf : List Element → List Element
  | [] => []
  | c :: rest => c :: (Element.descendants c ++ descendantsOf rest)
end

/-- `root.findall('.//t')`: every descendant tagged `t`, in document order. -/
def Element.findallDesc (e : Element) (t : String) : List Element :=
  e.descendants.filter (fun c => c.tag == t)

mutual
/-- Proper descendants of `e` with their index paths, in document order.
Index paths model Python object identity: two traversals of an unchanged tree
reach the same object iff paths agree. -/
def Element.descendantsP : Element → List (List Nat × Element)
  | .mk _ _ cs => descendantsPOf 0 cs

/-- Like `descendantsOf`, but each descendant is paired with its index path
from the root element; `i` is the index of the first sibling. -/
def descendantsPOf : Nat → List Element → List (List Nat × Element)
  | _, [] => []
  | i, c :: rest =>
    ([i], c)
      :: ((Element.descendantsP c).map (fun pe => (i :: pe.1, pe.2))
          ++ descendantsPOf (i + 1) rest)
end

/-- Replace the node sitting at the given index path. -/
def setAtPath : List Nat → Element → Element → Element
  | [], _, x => x
  | i :: p, .mk t tx cs, x =>
    .mk t tx (cs.enum.map (fun jc => if jc.1 = i then setAtPath p jc.2 x else jc.2))

/-- Append `x` to the children of the first direct child tagged `t`
(`ET.SubElement(root.find(t), ...)` leaves every other child untouched). -/
def appendUnderFirst (t : String) (x : Element) : List Element → List Element
  | [] => []
  | c :: cs =>
    if c.tag == t then .mk c.tag c.text (c.children ++ [x]) :: cs
    else c :: appendUnderFirst t x cs

/-- Python dict insertion: overwriting an existing key keeps its position,
a fresh key is appended (dicts preserve insertion order). -/
def dictInsert (d : List (String × Option String)) (k : String) (v : Option String) :
    List (String × Option String) :=
  if d.any (fun kv => kv.1 == k) then
    d.map (fun kv => if kv.1 == k then (k, v) else kv)
  else d ++ [(k, v)]

/-- The `{child.tag: child.text}` dict built by the getters from one entity node. -/
def childDict (e : Element) : List (String × Option String) :=
  e.children.foldl (fun d c => dictInsert d c.tag c.text) []

/-- Python `str.strip()` whitespace (ASCII subset; the code only meets ASCII). -/
def isPySpace (c : Char) : Bool :=
  c == ' ' || c == '\t' || c == '\n' || c == '\r' || c == '\x0b' || c == '\x0c'

/-- Python `s.strip()`. -/
def pyStrip (s : String) : String :=
  String.mk (((s.data.dropWhile isPySpace).reverse.dropWhile isPySpace).reverse)

/-- Split a character list at every occurrence of `sep`, keeping empty
segments, as Python `str.split(sep)` does for a one-character separator. -/
def splitChars (sep : Char) : List Char → List (List Char)
  | [] => [[]]
  | c :: cs =>
    match splitChars sep cs with
    | [] => [[]]
    | seg :: segs => if c == sep then [] :: seg :: segs else (c :: seg) :: segs

/-- Python `s.split(sep)` for a one-character separator. -/
def pySplit (s : String) (sep : Char) : List String :=
  (splitChars sep s.data).map String.mk

/-- Python `s.endswith(t)`. -/
def pyEndsWith (s t : String) : Bool :=
  t.data.isSuffixOf s.data

/-- Python `s.isdigit()`: non-empty and all digits (ASCII digits; the code
only meets ASCII rule ids). -/
def pyIsDigit (s : String) : Bool :=
  !s.data.isEmpty && s.data.all Char.isDigit

/-- After the leading digit, Python `int()` accepts digits with single
underscores strictly between digits. -/
def digitsUnderscore : List Char → Bool
  | [] => true
  | '_' :: c :: cs => c.isDigit && digitsUnderscore cs
  | '_' :: [] => false
  | c :: cs => c.isDigit && digitsUnderscore cs

/-- Numeric value of a digit/underscore string. -/
def digitsValue (l : List Char) : Nat :=
  l.foldl (fun n c => if c == '_' then n else n * 10 + (c.toNat - '0'.toNat)) 0

/-- Python `int(s)` on a string: strip whitespace, optional sign, then a
non-empty digit run (underscores allowed between digits); `none` models the
`ValueError` raised on any other input. -/
def pyIntParse (s : String) : Option Int :=
  match (pyStrip s).data with
  | [] => none
  | '+' :: rest =>
    match rest with
    | [] => none
    | c :: cs => if c.isDigit && digitsUnderscore cs then some (digitsValue rest) else none
  | '-' :: rest =>
    match rest with
    | [] => none
    | c :: cs => if c.isDigit && digitsUnderscore cs then some (-(digitsValue rest : Int)) else none
  | c :: cs => if c.isDigit && digitsUnderscore cs then some (digitsValue (c :: cs)) else none

/-- Python truthiness of an optional string: `not x` holds for `None` and `""`. -/
def pyFalsy : Option String → Bool
  | none => true
  | some s => s == ""

/-! ### OSSECConfigManager (ossec_config.py) -/

/-- Root children left by `organize_ossec_config`'s removal loop: the first
`ossec_config` child is swapped for `merged`, the later ones are deleted
(`self.root.remove(extra)` removes each extra occurrence by identity, so every
other child keeps its place). -/
def mergeOssecChildren (merged : Element) : List Element → List Element
  | [] => []
  | c :: cs =>
    if c.tag == "ossec_config" then
      merged :: cs.filter (fun d => !(d.tag == "ossec_config"))
    else c :: mergeOssecChildren merged cs

/-- `organize_ossec_config`: if more than one direct `ossec_config` child
exists, append the children of every non-first occurrence onto the first and
delete the non-first occurrences; otherwise do nothing. -/
def organize_ossec_config (root : Element) : Element :=
  match root.children.filter (fun c => c.tag == "ossec_config") with
  | first :: extra :: extras =>
    let merged : Element :=
      .mk first.tag first.text (first.children ++ ((extra :: extras).map Element.children).flatten)
    .mk root.tag root.text (mergeOssecChildren merged root.children)
  | _ => root

/-! ### ActiveResponseManager (active_response.py) -/

/-- The `location` values of the `LocationType` enum, in declaration order. -/
def locationValues : List String :=
  ["local", "server", "defined-agent", "all"]

/-- `_validate_rules_group`: non-empty, and every pipe-separated group,
stripped, ends with a comma. -/
def validate_rules_group (rules_group : String) : Bool :=
  if rules_group == "" then false
  else (pySplit rules_group '|').all (fun group => pyEndsWith (pyStrip group) ",")

/-- `_validate_rules_id`: non-empty, and every comma-separated id, stripped,
satisfies `str.isdigit`. -/
def validate_rules_id (rules_id : String) : Bool :=
  if rules_id == "" then false
  else (pySplit rules_id ',').all (fun id => pyIsDigit (pyStrip id))

/-- `_validate_level`: severity level between 1 and 16. -/
def validate_level (level : Int) : Bool :=
  decide (1 ≤ level ∧ level ≤ 16)

/-- `get_commands`: one `{tag: text}` dict per `.//command` descendant. -/
def get_commands (root : Element) : List (List (String × Option String)) :=
  (root.findallDesc "command").map childDict

/-- `get_active_responses`: one dict per `.//active-response` descendant. -/
def get_active_responses (root : Element) : List (List (String × Option String)) :=
  (root.findallDesc "active-response").map childDict

/-- `command_exists`: some `.//command` descendant has a `name` child whose
text equals `name` (the argument is `Optional` because `_validate_commands`
feeds it a possibly-`None` `command.text`). -/
def command_exists (root : Element) (name : Option String) : Bool :=
  (root.findallDesc "command").any (fun c =>
    match c.findChild "name" with
    | some nm => nm.text == name
    | none => false)

/-- Does this `active-response` element's first `command` child carry the
given text (the match test of update/remove/exists)? -/
def arCommandMatches (ar : Element) (command : String) : Bool :=
  match ar.findChild "command" with
  | some c => c.text == some command
  | none => false

/-- The error message of `_validate_commands`; the f-string renders a `None`
text as `"None"`. -/
def commandMissingMsg (t : Option String) : String :=
  "Command " ++ "'" ++ (match t with | some s => s | none => "None")
    ++ "' referenced in active response does not exist"

/-- One step of `_validate_commands`: the complaint (if any) about a single
active-response node — its `command` child, when present, must name an
existing command. -/
def arCommandCheck (root ar : Element) : Option String :=
  match ar.findChild "command" with
  | some c => if command_exists root c.text then none else some (commandMissingMsg c.text)
  | none => none

/-- `_validate_commands`: scan `.//active-response` in document order and
report (raise) on the first one whose `command` child names no existing
command; `none` means no `ValueError` is raised. -/
def validate_commands (root : Element) : Option String :=
  (root.findallDesc "active-response").findSome? (arCommandCheck root)

/-- `ActiveResponseManager.__init__` after parsing: `organize_ossec_config`
(run by the base class) followed by `_validate_commands`; `.error` models the
`ValueError` escaping the constructor. -/
def activeResponseManagerInit (root : Element) : Except String Element :=
  let r := organize_ossec_config root
  match validate_commands r with
  | some msg => .error msg
  | none => .ok r

/-- The `command` node built by `add_command`. -/
def commandNode (name executable : String) (timeout_allowed : Bool) : Element :=
  .mk "command" none
    [.mk "name" (some name) [],
     .mk "executable" (some executable) [],
     .mk "timeout_allowed" (some (if timeout_allowed then "yes" else "no")) []]

/-- `add_command`: refuse if the name is taken, otherwise append a new
`command` node under `root.find('ossec_config')`.  `none` models the
`AttributeError` raised by `ET.SubElement(None, ...)` when the root has no
`ossec_config` child. -/
def add_command (root : Element) (name executable : String) (timeout_allowed : Bool) :
    Option (Bool × Element) :=
  if command_exists root (some name) then some (false, root)
  else
    match root.findChild "ossec_config" with
    | none => none
    | some _ =>
      some (true, .mk root.tag root.text
        (appendUnderFirst "ossec_config" (commandNode name executable timeout_allowed)
          root.children))

/-- Model of `Element.remove` as used by the removal methods: the python code
finds the first `.//t` descendant satisfying `p` and calls `self.root.remove`
on it.  `list.remove` compares by identity and only inspects the root's direct
children, so it succeeds exactly when the matched element's path is a single
index; `none` models the `ValueError` it raises otherwise. -/
def removeFirstMatch (root : Element) (t : String) (p : Element → Bool) :
    Option (Bool × Element) :=
  match ((root.descendantsP.filter (fun pe => pe.2.tag == t)).find? (fun pe => p pe.2)) with
  | none => some (false, root)
  | some ([i], _) => some (true, .mk root.tag root.text (root.children.eraseIdx i))
  | some _ => none

/-- `remove_command`: drop the first `.//command` whose `name` child matches. -/
def remove_command (root : Element) (name : String) : Option (Bool × Element) :=
  removeFirstMatch root "command" (fun c =>
    match c.findChild "name" with
    | some nm => nm.text == some name
    | none => false)

/-- `remove_active_response`: drop the first `.//active-response` whose
`command` child matches. -/
def remove_active_response (root : Element) (command : String) : Option (Bool × Element) :=
  removeFirstMatch root "active-response" (fun ar => arCommandMatches ar command)

/-- The `active-response` node built by `add_active_response`: `command` and
`location` always, then each optional field only when supplied. -/
def arNode (command location : String) (level timeout : Option Int)
    (agent_id rules_group rules_id : Option String) : Element :=
  .mk "active-response" none
    ([.mk "command" (some command) [], .mk "location" (some location) []]
      ++ (match level with | some l => [Element.mk "level" (some (toString l)) []] | none => [])
      ++ (match timeout with | some t => [Element.mk "timeout" (some (toString t)) []] | none => [])
      ++ (match agent_id with | some a => [Element.mk "agent_id" (some a) []] | none => [])
      ++ (match rules_group with
          | some g => [Element.mk "rules_group" (some g) []] | none => [])
      ++ (match rules_id with | some i => [Element.mk "rules_id" (some i) []] | none => []))

/-- `add_active_response`: validate command existence, location, agent id,
level, rules group and rules id in this order, returning `False` with the
document untouched on the first failure; on success append the new node under
`root.find('ossec_config')` (`none` again models `ET.SubElement(None, ...)`
when that child is missing). -/
def add_active_response (root : Element) (command location : String)
    (level timeout : Option Int) (agent_id rules_group rules_id : Option String) :
    Option (Bool × Element) :=
  if !command_exists root (some command) then some (false, root)
  else if !locationValues.contains location then some (false, root)
  else if location == "defined-agent" && pyFalsy agent_id then some (false, root)
  else if (match level with | some l => !validate_level l | none => false) then
    some (false, root)
  else if (match rules_group with | some g => !validate_rules_group g | none => false) then
    some (false, root)
  else if (match rules_id with | some i => !validate_rules_id i | none => false) then
    some (false, root)
  else
    match root.findChild "ossec_config" with
    | none => none
    | some _ =>
      some (true, .mk root.tag root.text
        (appendUnderFirst "ossec_config"
          (arNode command location level timeout agent_id rules_group rules_id) root.children))

/-- The disjunction of the six conditions `add_active_response` checks before
mutating, in checking order. -/
def addARFailsB (root : Element) (command location : String)
    (level : Option Int) (agent_id rules_group rules_id : Option String) : Bool :=
  !command_exists root (some command)
  || !locationValues.contains location
  || (location == "defined-agent" && pyFalsy agent_id)
  || (match level with | some l => !validate_level l | none => false)
  || (match rules_group with | some g => !validate_rules_group g | none => false)
  || (match rules_id with | some i => !validate_rules_id i | none => false)

/-- Specification-side failure condition of `add_active_response`: the
command does not exist, or the location is not one of the four enum values,
or the location is `defined-agent` without a (non-empty) agent id, or a
supplied level / rules group / rules id fails its validator. -/
def addARValidationFails (root : Element) (command location : String)
    (level : Option Int) (agent_id rules_group rules_id : Option String) : Prop :=
  command_exists root (some command) = false
  ∨ location ∉ locationValues
  ∨ (location = "defined-agent" ∧ (agent_id = none ∨ agent_id = some ""))
  ∨ (∃ l, level = some l ∧ validate_level l = false)
  ∨ (∃ g, rules_group = some g ∧ validate_rules_group g = false)
  ∨ (∃ i, rules_id = some i ∧ validate_rules_id i = false)

/-- Set the text of the first direct child tagged `t`, or append a fresh leaf
when no such child exists (`element = ar.find(tag)` / `ET.SubElement`). -/
def setFirstChildText (t v : String) : List Element → List Element
  | [] => [.mk t (some v) []]
  | c :: cs =>
    if c.tag == t then .mk c.tag (some v) c.children :: cs
    else c :: setFirstChildText t v cs

/-- The update loop of `update_active_response` over one matched node: each
field is validated at the moment it is applied, so fields already written stay
written when a later field fails.  `none` models the `ValueError` raised by
`int(value)` on a non-numeric `level`. -/
def applyARUpdates (ar : Element) : List (String × String) → Option (Bool × Element)
  | [] => some (true, ar)
  | (tag, value) :: rest =>
    if tag == "level" then
      match pyIntParse value with
      | none => none
      | some n =>
        if !validate_level n then some (false, ar)
        else applyARUpdates (.mk ar.tag ar.text (setFirstChildText tag value ar.children)) rest
    else if tag == "rules_group" then
      if !validate_rules_group value then some (false, ar)
      else applyARUpdates (.mk ar.tag ar.text (setFirstChildText tag value ar.children)) rest
    else if tag == "rules_id" then
      if !validate_rules_id value then some (false, ar)
      else applyARUpdates (.mk ar.tag ar.text (setFirstChildText tag value ar.children)) rest
    else applyARUpdates (.mk ar.tag ar.text (setFirstChildText tag value ar.children)) rest

/-- `update_active_response`: find the first `.//active-response` whose
`command` child matches and run the update loop on it in place (updates are
ordered key/value pairs, as python dicts preserve insertion order). -/
def update_active_response (root : Element) (command : String)
    (updates : List (String × String)) : Option (Bool × Element) :=
  match ((root.descendantsP.filter (fun pe => pe.2.tag == "active-response")).find?
      (fun pe => arCommandMatches pe.2 command)) with
  | none => some (false, root)
  | some (p, ar) =>
    match applyARUpdates ar updates with
    | none => none
    | some (b, ar') => some (b, setAtPath p root ar')

/-! ### Concrete documents used to exhibit behaviours

`scenario0` is a freshly loaded minimal configuration (one empty
`ossec_config` block under the synthetic root); `scenario1`/`scenario2` are
its states after the example scenario's two additions, and
`scenario2Updated` the state left behind by a failing update. -/

def scenario0 : Element := .mk "root" none [.mk "ossec_config" none []]

def scenario1 : Element :=
  .mk "root" none
    [.mk "ossec_config" none [commandNode "custom-block" "custom-block.sh" true]]

def scenario2 : Element :=
  .mk "root" none
    [.mk "ossec_config" none
      [commandNode "custom-block" "custom-block.sh" true,
       arNode "custom-block" "local" (some 10) (some 300) none none (some "1001,1002,1003")]]

def scenario2Updated : Element :=
  .mk "root" none
    [.mk "ossec_config" none
      [commandNode "custom-block" "custom-block.sh" true,
       .mk "active-response" none
         [.mk "command" (some "custom-block") [], .mk "location" (some "local") [],
          .mk "level" (some "10") [], .mk "timeout" (some "999") [],
          .mk "rules_id" (some "1001,1002,1003") []]]]

/-- A loaded document whose `command` block sits at the top level (a valid
input shape: sibling top-level blocks), so that `remove_command` can actually
succeed and leave a dangling active-response reference behind. -/
def topCmd0 : Element :=
  .mk "root" none
    [.mk "command" none [.mk "name" (some "c") [], .mk "executable" (some "c.sh") []],
     .mk "ossec_config" none []]

def topCmd1 : Element :=
  .mk "root" none
    [.mk "command" none [.mk "name" (some "c") [], .mk "executable" (some "c.sh") []],
     .mk "ossec_config" none [arNode "c" "local" none none none none none]]

def topCmd2 : Element :=
  .mk "root" none [.mk "ossec_config" none [arNode "c" "local" none none none none none]]

/-- A document with three `ossec_config` blocks interleaved with other
top-level blocks, for the normalization merge. -/
def multiBlockDoc : Element :=
  .mk "root" none
    [.mk "alpha" none [],
     .mk "ossec_config" none [.mk "a" none [], .mk "b" none []],
     .mk "beta" (some "x") [],
     .mk "ossec_config" (some "t") [.mk "c" none []],
     .mk "ossec_config" none [.mk "d" none []]]

/-! ### Auxiliary lemmas -/

theorem string_eq_iff_data (u t : String) : u = t ↔ u.data = t.data := by
  constructor
  · rintro rfl; rfl
  · intro h; cases u; cases t; simp_all

theorem pyEndsWith_comma_iff (u : String) :
    pyEndsWith u "," = true ↔ ∃ t : String, u = t ++ "," := by
  rw [pyEndsWith, List.isSuffixOf_iff_suffix]
  constructor
  · rintro ⟨tl, htl⟩
    refine ⟨String.mk tl, ?_⟩
    rw [string_eq_iff_data]
    simpa using htl.symm
  · rintro ⟨t, rfl⟩
    exact ⟨t.data, by simp⟩

theorem pyIsDigit_iff (u : String) :
    pyIsDigit u = true ↔ (u ≠ "" ∧ ∀ c ∈ u.data, c.isDigit = true) := by
  rw [pyIsDigit]
  simp [List.isEmpty_iff, List.all_eq_true, string_eq_iff_data u ""]

theorem mem_descendantsOf_of_mem {a : Element} :
    ∀ {l : List Element}, a ∈ l → a ∈ descendantsOf l := by
  intro l
  induction l with
  | nil => simp
  | cons b rest ih =>
    intro ha
    rcases List.mem_cons.mp ha with rfl | ha
    · simp [descendantsOf]
    · simp only [descendantsOf, List.mem_cons, List.mem_append]
      exact Or.inr (Or.inr (ih ha))

mutual
theorem mem_trans_descendants :
    ∀ (e c : Element), c ∈ e.descendants → ∀ x, x ∈ c.descendants → x ∈ e.descendants
  | .mk _ _ cs, c => fun hc x hx => mem_trans_descendantsOf cs c hc x hx

theorem mem_trans_descendantsOf :
    ∀ (l : List Element) (c : Element), c ∈ descendantsOf l →
      ∀ x, x ∈ c.descendants → x ∈ descendantsOf l
  | [], c => by simp [descendantsOf]
  | a :: rest, c => fun hc x hx => by
    simp only [descendantsOf, List.mem_cons, List.mem_append] at hc ⊢
    rcases hc with rfl | hc | hc
    · exact Or.inr (Or.inl hx)
    · exact Or.inr (Or.inl (mem_trans_descendants a c hc x hx))
    · exact Or.inr (Or.inr (mem_trans_descendantsOf rest c hc x hx))
end

theorem mem_findallDesc_of {doc x : Element} {t : String}
    (hx : x ∈ doc.descendants) (ht : x.tag = t) : x ∈ doc.findallDesc t :=
  List.mem_filter.mpr ⟨hx, by simp [ht]⟩

theorem appendUnderFirst_eq (t : String) (x : Element) :
    ∀ (cs : List Element) (oc : Element), cs.find? (fun c => c.tag == t) = some oc →
      ∃ p s, cs = p ++ oc :: s ∧ (∀ c ∈ p, (c.tag == t) = false) ∧
        appendUnderFirst t x cs = p ++ Element.mk oc.tag oc.text (oc.children ++ [x]) :: s := by
  intro cs
  induction cs with
  | nil => intro oc h; simp at h
  | cons c rest ih =>
    intro oc h
    by_cases hc : (c.tag == t) = true
    · rw [List.find?_cons_of_pos (p := fun c => c.tag == t) rest hc] at h
      injection h with h
      subst h
      exact ⟨[], rest, rfl, by simp, by simp [appendUnderFirst, hc]⟩
    · rw [List.find?_cons_of_neg (p := fun c => c.tag == t) rest hc] at h
      obtain ⟨p, s, hsplit, hp, happ⟩ := ih oc h
      refine ⟨c :: p, s, by rw [hsplit, List.cons_append], ?_, ?_⟩
      · intro d hd
        rcases List.mem_cons.mp hd with rfl | hd
        · simpa using hc
        · exact hp d hd
      · simp only [appendUnderFirst, if_neg hc, happ, List.cons_append]

/-! ### Claim theorems -/

/-- C6: for every string `s`, the rules-group validator accepts `s` iff `s` is
non-empty and every pipe-separated segment of `s`, after trimming surrounding
whitespace, ends with a comma; in particular `"authentication_failure,"` is
accepted, `"authentication_failure"` rejected, `"a,|b"` rejected, `"a,|b,"`
accepted. -/
theorem rules_group_validator_spec :
    (∀ s : String, validate_rules_group s = true ↔
      (s ≠ "" ∧ ∀ g ∈ pySplit s '|', ∃ t : String, pyStrip g = t ++ ","))
    ∧ validate_rules_group "authentication_failure," = true
    ∧ validate_rules_group "authentication_failure" = false
    ∧ validate_rules_group "a,|b" = false
    ∧ validate_rules_group "a,|b," = true := by
  refine ⟨fun s => ?_, by decide, by decide, by decide, by decide⟩
  by_cases hs : s = ""
  · simp [validate_rules_group, hs]
  · have hbeq : (s == "") = false := by simpa using hs
    simp only [validate_rules_group, hbeq, Bool.false_eq_true, if_false, List.all_eq_true]
    constructor
    · intro h
      exact ⟨hs, fun g hg => (pyEndsWith_comma_iff (pyStrip g)).mp (h g hg)⟩
    · intro h g hg
      exact (pyEndsWith_comma_iff (pyStrip g)).mpr (h.2 g hg)

/-- C6 witness: the validator verdict on `"auth,|pci,"` follows from the
specification equivalence instantiated there. -/
theorem rules_group_validator_spec_witness : validate_rules_group "auth,|pci," = true :=
  (rules_group_validator_spec.1 "auth,|pci,").mpr
    ⟨by decide, by
      intro g hg
      have hsplit : pySplit "auth,|pci," '|' = ["auth,", "pci,"] := by decide
      rw [hsplit] at hg
      rcases List.mem_cons.mp hg with rfl | hg
      · exact ⟨"auth", by decide⟩
      · rcases List.mem_cons.mp hg with rfl | hg
        · exact ⟨"pci", by decide⟩
        · simp at hg⟩

/-- C7: for every string `s`, the rules-id validator accepts `s` iff `s` is
non-empty and every comma-separated segment of `s`, after trimming surrounding
whitespace, is a non-empty all-digit string; in particular `"1001,1002"` is
accepted and `"1001,abc"` rejected. -/
theorem rules_id_validator_spec :
    (∀ s : String, validate_rules_id s = true ↔
      (s ≠ "" ∧ ∀ seg ∈ pySplit s ',',
        pyStrip seg ≠ "" ∧ ∀ c ∈ (pyStrip seg).data, c.isDigit = true))
    ∧ validate_rules_id "1001,1002" = true
    ∧ validate_rules_id "1001,abc" = false := by
  refine ⟨fun s => ?_, by decide, by decide⟩
  by_cases hs : s = ""
  · simp [validate_rules_id, hs]
  · have hbeq : (s == "") = false := by simpa using hs
    simp only [validate_rules_id, hbeq, Bool.false_eq_true, if_false, List.all_eq_true]
    constructor
    · intro h
      exact ⟨hs, fun seg hseg => (pyIsDigit_iff (pyStrip seg)).mp (h seg hseg)⟩
    · intro h seg hseg
      exact (pyIsDigit_iff (pyStrip seg)).mpr (h.2 seg hseg)

/-- C7 witness: the validator verdict on `" 12 ,7"` follows from the
specification equivalence instantiated there. -/
theorem rules_id_validator_spec_witness : validate_rules_id " 12 ,7" = true :=
  (rules_id_validator_spec.1 " 12 ,7").mpr
    ⟨by decide, by
      intro seg hseg
      have hsplit : pySplit " 12 ,7" ',' = [" 12 ", "7"] := by decide
      rw [hsplit] at hseg
      rcases List.mem_cons.mp hseg with rfl | hseg
      · exact ⟨by decide, by decide⟩
      · rcases List.mem_cons.mp hseg with rfl | hseg
        · exact ⟨by decide, by decide⟩
        · simp at hseg⟩

/-- C1: in the example scenario both additions succeed and both entities show
up in the get-lists, but the final `remove_active_response("custom-block")`
does not return a success indicator: the matched node is a child of the
`ossec_config` block, not of the root, so `self.root.remove(...)` raises
`ValueError` (modelled by `none`) instead of removing it and returning
`True`. -/
theorem scenario_remove_active_response_raises :
    add_command scenario0 "custom-block" "custom-block.sh" true = some (true, scenario1)
    ∧ add_active_response scenario1 "custom-block" "local" (some 10) (some 300) none none
        (some "1001,1002,1003") = some (true, scenario2)
    ∧ [("name", some "custom-block"), ("executable", some "custom-block.sh"),
        ("timeout_allowed", some "yes")] ∈ get_commands scenario2
    ∧ [("command", some "custom-block"), ("location", some "local"),
        ("level", some "10"), ("timeout", some "300"),
        ("rules_id", some "1001,1002,1003")] ∈ get_active_responses scenario2
    ∧ remove_active_response scenario2 "custom-block" = none := by
  refine ⟨by decide, by decide, by decide, by decide, by decide⟩

/-- C2: mutation calls on existing entities can raise instead of reporting a
boolean failure: `update_active_response` with the string `"abc"` under the
`level` key raises `ValueError` from `int("abc")` before any validation
verdict, and `remove_command` on a command stored inside the `ossec_config`
block raises `ValueError` from `self.root.remove(...)`; both are modelled by
`none`. -/
theorem mutation_calls_can_raise :
    update_active_response scenario2 "custom-block" [("level", "abc")] = none
    ∧ remove_command scenario2 "custom-block" = none := by
  refine ⟨by decide, by decide⟩

/-- C9: `update_active_response` is not atomic on validation failure: on
`scenario2`, updating `timeout` to `"999"` and then `level` to the invalid
`"99"` returns `False`, yet the document now carries the new timeout. -/
theorem update_active_response_partial_write :
    update_active_response scenario2 "custom-block" [("timeout", "999"), ("level", "99")]
      = some (false, scenario2Updated)
    ∧ scenario2Updated ≠ scenario2 := by
  refine ⟨by decide, by decide⟩

/-- C9 witness: the failing update's return value, read off from the
non-atomicity theorem. -/
theorem update_active_response_partial_write_witness :
    update_active_response scenario2 "custom-block" [("timeout", "999"), ("level", "99")]
      = some (false, scenario2Updated) :=
  update_active_response_partial_write.1

theorem descendants_eq (e : Element) : e.descendants = descendantsOf e.children := by
  cases e; rfl

theorem arCommandCheck_eq_none_iff (root ar : Element) :
    arCommandCheck root ar = none ↔
      ∀ c, ar.findChild "command" = some c → command_exists root c.text = true := by
  rw [arCommandCheck]
  cases h : ar.findChild "command" with
  | none => simp [h]
  | some c =>
    by_cases hex : command_exists root c.text = true
    · simp [hex]
    · simp only [hex, Bool.false_eq_true, if_false, reduceCtorEq, false_iff, not_forall]
      exact ⟨c, rfl, by simpa using hex⟩

theorem arCommandCheck_eq_some_iff (root ar : Element) (msg : String) :
    arCommandCheck root ar = some msg ↔
      ∃ c, ar.findChild "command" = some c ∧ command_exists root c.text = false ∧
        msg = commandMissingMsg c.text := by
  rw [arCommandCheck]
  cases h : ar.findChild "command" with
  | none => simp
  | some c =>
    by_cases hex : command_exists root c.text = true
    · simp [hex]
    · have hex' : command_exists root c.text = false := by simpa using hex
      simp [hex']
      exact eq_comm

/-- C3: constructing the manager fails exactly when some active-response's
`command` child names no existing command, with the error naming the
offending command; and the check is construction-only: on `topCmd1` a
referenced command can be removed, leaving a document that the constructor
would reject, without the removal itself performing any integrity check. -/
theorem init_referential_integrity :
    (∀ doc : Element,
      (validate_commands doc = none ↔
        ∀ ar ∈ doc.findallDesc "active-response",
          ∀ c, ar.findChild "command" = some c → command_exists doc c.text = true)
      ∧ (∀ msg, validate_commands doc = some msg →
          ∃ ar ∈ doc.findallDesc "active-response", ∃ c,
            ar.findChild "command" = some c ∧ command_exists doc c.text = false ∧
            msg = commandMissingMsg c.text)
      ∧ (activeResponseManagerInit doc = .ok (organize_ossec_config doc) ↔
          validate_commands (organize_ossec_config doc) = none))
    ∧ add_active_response topCmd0 "c" "local" none none none none none = some (true, topCmd1)
    ∧ remove_command topCmd1 "c" = some (true, topCmd2)
    ∧ validate_commands topCmd1 = none
    ∧ validate_commands topCmd2 = some (commandMissingMsg (some "c")) := by
  refine ⟨fun doc => ⟨?_, ?_, ?_⟩, by decide, by decide, by decide, by decide⟩
  · rw [validate_commands, List.findSome?_eq_none_iff]
    constructor
    · intro h ar har
      exact (arCommandCheck_eq_none_iff doc ar).mp (h ar har)
    · intro h ar har
      exact (arCommandCheck_eq_none_iff doc ar).mpr (h ar har)
  · intro msg hmsg
    obtain ⟨ar, har, hcheck⟩ := List.exists_of_findSome?_eq_some hmsg
    obtain ⟨c, hc, hex, hmsg'⟩ := (arCommandCheck_eq_some_iff doc ar msg).mp hcheck
    exact ⟨ar, har, c, hc, hex, hmsg'⟩
  · rw [activeResponseManagerInit]
    cases h : validate_commands (organize_ossec_config doc) <;> simp [h]

/-- C3 witness: a document with no active-response passes the construction
check, by the specification equivalence. -/
theorem init_referential_integrity_witness :
    validate_commands (Element.mk "r" none [Element.mk "command" none []]) = none :=
  ((init_referential_integrity.1 (Element.mk "r" none [Element.mk "command" none []])).1).mpr
    (by
      intro ar har
      have hempty : (Element.mk "r" none
          [Element.mk "command" none []]).findallDesc "active-response" = [] := by decide
      rw [hempty] at har
      exact absurd har (List.not_mem_nil ar))

theorem tag_mk (t : String) (x : Option String) (cs : List Element) :
    (Element.mk t x cs).tag = t := rfl

theorem text_mk (t : String) (x : Option String) (cs : List Element) :
    (Element.mk t x cs).text = x := rfl

theorem children_mk (t : String) (x : Option String) (cs : List Element) :
    (Element.mk t x cs).children = cs := rfl

theorem mergeOssecChildren_eq (merged : Element) :
    ∀ (cs : List Element) (first : Element) (rest : List Element),
      cs.filter (fun c => c.tag == "ossec_config") = first :: rest →
      ∃ p s, cs = p ++ first :: s
        ∧ (∀ c ∈ p, (c.tag == "ossec_config") = false)
        ∧ s.filter (fun c => c.tag == "ossec_config") = rest
        ∧ mergeOssecChildren merged cs
            = p ++ merged :: s.filter (fun c => !(c.tag == "ossec_config")) := by
  intro cs
  induction cs with
  | nil => intro first rest h; simp at h
  | cons c cs ih =>
    intro first rest h
    by_cases hc : (c.tag == "ossec_config") = true
    · rw [List.filter_cons_of_pos (p := fun (c : Element) => c.tag == "ossec_config") hc] at h
      injection h with h1 h2
      subst h1
      subst h2
      exact ⟨[], cs, rfl, by simp, rfl, by simp [mergeOssecChildren, hc]⟩
    · rw [List.filter_cons_of_neg (p := fun (c : Element) => c.tag == "ossec_config") hc] at h
      obtain ⟨p, s, hsplit, hp, hs, hmerge⟩ := ih first rest h
      refine ⟨c :: p, s, by rw [hsplit, List.cons_append], ?_, hs, ?_⟩
      · intro d hd
        rcases List.mem_cons.mp hd with rfl | hd
        · simpa using hc
        · exact hp d hd
      · simp only [mergeOssecChildren, if_neg hc, hmerge, List.cons_append]

theorem filter_not_filter_eq_nil (l : List Element) :
    ((l.filter (fun c => !(c.tag == "ossec_config"))).filter
      (fun c => c.tag == "ossec_config")) = [] := by
  rw [List.filter_filter]
  apply List.filter_eq_nil_iff.mpr
  intro a _
  simp

/-- C5: with at most one direct `ossec_config` child, normalization changes
nothing; with more than one, the result keeps every other child in place and
has exactly one `ossec_config` child — at the position of the first
occurrence — whose children are the first occurrence's children followed by
the children of every later occurrence, in occurrence order and, within each
occurrence, in child order. -/
theorem organize_merge_spec :
    ∀ root : Element,
      (((root.children.filter (fun c => c.tag == "ossec_config")).length ≤ 1) →
        organize_ossec_config root = root)
      ∧ (∀ first extra extras,
          root.children.filter (fun c => c.tag == "ossec_config")
            = first :: extra :: extras →
          ∃ p s, root.children = p ++ first :: s
            ∧ (∀ c ∈ p, (c.tag == "ossec_config") = false)
            ∧ (organize_ossec_config root).children
                = p ++ (Element.mk "ossec_config" first.text
                    (first.children ++ ((extra :: extras).map Element.children).flatten))
                  :: s.filter (fun c => !(c.tag == "ossec_config"))
            ∧ ((organize_ossec_config root).children.filter
                (fun c => c.tag == "ossec_config")).length = 1) := by
  intro root
  constructor
  · intro hlen
    cases h : root.children.filter (fun c => c.tag == "ossec_config") with
    | nil => rw [organize_ossec_config, h]
    | cons f rest =>
      cases rest with
      | nil => rw [organize_ossec_config, h]
      | cons g rest' => rw [h] at hlen; simp at hlen
  · intro first extra extras h
    have hfirstTag : first.tag = "ossec_config" := by
      have hmem : first ∈ root.children.filter (fun c => c.tag == "ossec_config") := by
        rw [h]; exact List.mem_cons_self first (extra :: extras)
      simpa using (List.mem_filter.mp hmem).2
    have horg : organize_ossec_config root
        = Element.mk root.tag root.text (mergeOssecChildren
            (Element.mk first.tag first.text
              (first.children ++ ((extra :: extras).map Element.children).flatten))
            root.children) := by
      rw [organize_ossec_config, h]
    obtain ⟨p, s, hsplit, hp, _, hmerge⟩ :=
      mergeOssecChildren_eq
        (Element.mk first.tag first.text
          (first.children ++ ((extra :: extras).map Element.children).flatten))
        root.children first (extra :: extras) h
    refine ⟨p, s, hsplit, hp, ?_, ?_⟩
    · rw [horg]
      simp only [children_mk]
      rw [hmerge, hfirstTag]
    · rw [horg]
      simp only [children_mk]
      rw [hmerge, List.filter_append,
        List.filter_cons_of_pos (p := fun (c : Element) => c.tag == "ossec_config")
          (by simp [tag_mk, hfirstTag]),
        filter_not_filter_eq_nil,
        List.filter_eq_nil_iff.mpr (fun a ha => by simp [hp a ha])]
      simp

/-- C5 witness: the three-block document merges into the expected single
block, by the merge specification instantiated there. -/
theorem organize_merge_spec_witness :
    ∃ p s,
      multiBlockDoc.children = p ++ Element.mk "ossec_config" none
          [Element.mk "a" none [], Element.mk "b" none []] :: s
        ∧ (∀ c ∈ p, (c.tag == "ossec_config") = false)
        ∧ (organize_ossec_config multiBlockDoc).children
            = p ++ Element.mk "ossec_config" none
                [Element.mk "a" none [], Element.mk "b" none [],
                 Element.mk "c" none [], Element.mk "d" none []]
              :: s.filter (fun c => !(c.tag == "ossec_config"))
        ∧ ((organize_ossec_config multiBlockDoc).children.filter
            (fun c => c.tag == "ossec_config")).length = 1 :=
  (organize_merge_spec multiBlockDoc).2
    (Element.mk "ossec_config" none [Element.mk "a" none [], Element.mk "b" none []])
    (Element.mk "ossec_config" (some "t") [Element.mk "c" none []])
    [Element.mk "ossec_config" none [Element.mk "d" none []]]
    (by decide)

theorem add_ar_eval (root : Element) (command location : String)
    (level timeout : Option Int) (agent_id rules_group rules_id : Option String) :
    add_active_response root command location level timeout agent_id rules_group rules_id
      = if addARFailsB root command location level agent_id rules_group rules_id
        then some (false, root)
        else
          match root.findChild "ossec_config" with
          | none => none
          | some _ =>
            some (true, Element.mk root.tag root.text (appendUnderFirst "ossec_config"
              (arNode command location level timeout agent_id rules_group rules_id)
              root.children)) := by
  unfold add_active_response addARFailsB
  by_cases h1 : (!command_exists root (some command)) = true <;>
    by_cases h2 : (!locationValues.contains location) = true <;>
      by_cases h3 : (location == "defined-agent" && pyFalsy agent_id) = true <;>
        by_cases h4 :
            (match level with | some l => !validate_level l | none => false) = true <;>
          by_cases h5 :
              (match rules_group with
               | some g => !validate_rules_group g | none => false) = true <;>
            by_cases h6 :
                (match rules_id with
                 | some i => !validate_rules_id i | none => false) = true <;>
              simp [h1, h2, h3, h4, h5, h6]

theorem addARValidationFails_iff (root : Element) (command location : String)
    (level : Option Int) (agent_id rules_group rules_id : Option String) :
    addARValidationFails root command location level agent_id rules_group rules_id ↔
      addARFailsB root command location level agent_id rules_group rules_id = true := by
  cases level <;> cases agent_id <;> cases rules_group <;> cases rules_id <;>
    simp [addARValidationFails, addARFailsB, pyFalsy, Bool.or_eq_true, Bool.and_eq_true,
      Bool.not_eq_true', List.contains, decide_eq_false_iff_not, or_assoc]

/-- C4: any validation failure of `add_active_response` (nonexistent command,
bad location, `defined-agent` without agent id, invalid level / rules group /
rules id) yields `False` with the document unchanged; a `True` result happens
only without such a failure and appends exactly one node under the first
`ossec_config` child, in which each optional field is present iff it was
supplied; in particular `defined-agent` without an agent id fails without
mutation. -/
theorem add_active_response_spec :
    ∀ (root : Element) (command location : String) (level timeout : Option Int)
      (agent_id rules_group rules_id : Option String),
      (addARValidationFails root command location level agent_id rules_group rules_id →
        add_active_response root command location level timeout agent_id rules_group rules_id
          = some (false, root))
      ∧ (∀ doc', add_active_response root command location level timeout agent_id rules_group
            rules_id = some (true, doc') →
          ¬ addARValidationFails root command location level agent_id rules_group rules_id
          ∧ doc' = Element.mk root.tag root.text (appendUnderFirst "ossec_config"
              (arNode command location level timeout agent_id rules_group rules_id)
              root.children))
      ∧ (¬ addARValidationFails root command location level agent_id rules_group rules_id →
          (root.findChild "ossec_config").isSome = true →
          add_active_response root command location level timeout agent_id rules_group rules_id
            = some (true, Element.mk root.tag root.text (appendUnderFirst "ossec_config"
                (arNode command location level timeout agent_id rules_group rules_id)
                root.children)))
      ∧ ((arNode command location level timeout agent_id rules_group rules_id).findChild
          "level").isSome = level.isSome
      ∧ ((arNode command location level timeout agent_id rules_group rules_id).findChild
          "timeout").isSome = timeout.isSome
      ∧ ((arNode command location level timeout agent_id rules_group rules_id).findChild
          "agent_id").isSome = agent_id.isSome
      ∧ ((arNode command location level timeout agent_id rules_group rules_id).findChild
          "rules_group").isSome = rules_group.isSome
      ∧ ((arNode command location level timeout agent_id rules_group rules_id).findChild
          "rules_id").isSome = rules_id.isSome
      ∧ (location = "defined-agent" → agent_id = none →
          add_active_response root command location level timeout agent_id rules_group rules_id
            = some (false, root)) := by
  intro root command location level timeout agent_id rules_group rules_id
  refine ⟨?_, ?_, ?_, ?_, ?_, ?_, ?_, ?_, ?_⟩
  · intro h
    rw [add_ar_eval, if_pos ((addARValidationFails_iff root command location level agent_id
      rules_group rules_id).mp h)]
  · intro doc' h
    rw [add_ar_eval] at h
    by_cases hb : addARFailsB root command location level agent_id rules_group rules_id = true
    · rw [if_pos hb] at h
      exact absurd h (by simp)
    · rw [if_neg hb] at h
      refine ⟨fun hf => hb ((addARValidationFails_iff root command location level agent_id
        rules_group rules_id).mp hf), ?_⟩
      cases hoc : root.findChild "ossec_config" with
      | none => rw [hoc] at h; exact absurd h (by simp)
      | some oc =>
        rw [hoc] at h
        simp only [Option.some.injEq, Prod.mk.injEq] at h
        exact h.2.symm
  · intro hnf hoc
    rw [add_ar_eval, if_neg (fun hb => hnf ((addARValidationFails_iff root command location
      level agent_id rules_group rules_id).mpr hb))]
    obtain ⟨oc, hoc'⟩ := Option.isSome_iff_exists.mp hoc
    rw [hoc']
  · cases level <;> cases timeout <;> cases agent_id <;> cases rules_group <;>
      cases rules_id <;> rfl
  · cases level <;> cases timeout <;> cases agent_id <;> cases rules_group <;>
      cases rules_id <;> rfl
  · cases level <;> cases timeout <;> cases agent_id <;> cases rules_group <;>
      cases rules_id <;> rfl
  · cases level <;> cases timeout <;> cases agent_id <;> cases rules_group <;>
      cases rules_id <;> rfl
  · cases level <;> cases timeout <;> cases agent_id <;> cases rules_group <;>
      cases rules_id <;> rfl
  · intro h1 h2
    subst h1
    subst h2
    rw [add_ar_eval, if_pos (by simp [addARFailsB, pyFalsy])]

/-- C4 witness: on `scenario1`, `defined-agent` with no agent id is refused
with the document unchanged, by the specification instantiated there. -/
theorem add_active_response_spec_witness :
    add_active_response scenario1 "custom-block" "defined-agent" none none none none none
      = some (false, scenario1) :=
  (add_active_response_spec scenario1 "custom-block" "defined-agent" none none none none
    none).2.2.2.2.2.2.2.2 rfl rfl

/-- C8: `add_command` is idempotent-safe: with a fresh name (and an
`ossec_config` block to append under), the first call appends the command node
and returns `True`, changing the document; the second call with the same name
reports failure without raising and leaves the document unchanged. -/
theorem add_command_idempotent :
    ∀ (root : Element) (name executable : String) (timeout_allowed : Bool),
      command_exists root (some name) = false →
      (root.findChild "ossec_config").isSome = true →
      ∃ root', add_command root name executable timeout_allowed = some (true, root')
        ∧ root' ≠ root
        ∧ add_command root' name executable timeout_allowed = some (false, root') := by
  intro root name executable ta hfresh hoc
  obtain ⟨oc, hoc'⟩ := Option.isSome_iff_exists.mp hoc
  obtain ⟨p, s, hsplit, hp, happ⟩ :=
    appendUnderFirst_eq "ossec_config" (commandNode name executable ta) root.children oc hoc'
  refine ⟨Element.mk root.tag root.text
    (appendUnderFirst "ossec_config" (commandNode name executable ta) root.children),
    ?_, ?_, ?_⟩
  · simp [add_command, hfresh, hoc']
  · intro heq
    have hchild := congrArg Element.children heq
    rw [children_mk, happ, hsplit] at hchild
    have h2 := List.append_cancel_left hchild
    injection h2 with h3 h4
    cases oc with
    | mk t tx cs =>
      simp only [tag_mk, text_mk, children_mk] at h3
      injection h3 with _ _ h5
      have hlen := congrArg List.length h5
      simp at hlen
  · have hxmem : commandNode name executable ta ∈ descendantsOf
        (appendUnderFirst "ossec_config" (commandNode name executable ta) root.children) := by
      rw [happ]
      apply mem_trans_descendantsOf _
        (Element.mk oc.tag oc.text (oc.children ++ [commandNode name executable ta]))
      · exact mem_descendantsOf_of_mem (by simp)
      · rw [descendants_eq, children_mk]
        exact mem_descendantsOf_of_mem (by simp)
    have hexists : command_exists (Element.mk root.tag root.text
        (appendUnderFirst "ossec_config" (commandNode name executable ta) root.children))
        (some name) = true := by
      unfold command_exists
      rw [List.any_eq_true]
      refine ⟨commandNode name executable ta, ?_, ?_⟩
      · apply mem_findallDesc_of
        · rw [descendants_eq, children_mk]
          exact hxmem
        · rfl
      · show ((Element.mk "name" (some name) []).text == some name) = true
        simp [text_mk]
    simp [add_command, hexists]

/-- C8 witness: adding a fresh command to `scenario0` twice, by the
idempotence theorem instantiated there. -/
theorem add_command_idempotent_witness :
    ∃ root', add_command scenario0 "fresh" "fresh.sh" false = some (true, root')
      ∧ root' ≠ scenario0
      ∧ add_command root' "fresh" "fresh.sh" false = some (false, root') :=
  add_command_idempotent scenario0 "fresh" "fresh.sh" false (by decide) (by decide)

/-- C10: `get_commands` returns one entry per `.//command` descendant, at any
depth; the `command` leaf inside an active-response therefore contributes an
entry, and being childless that entry is the empty mapping; `command_exists`,
by contrast, only ever holds through a command element that has a `name`
child, which such leaves lack. -/
theorem get_commands_any_depth :
    ∀ doc : Element,
      (get_commands doc).length = (doc.findallDesc "command").length
      ∧ (∀ ar ∈ doc.findallDesc "active-response", ∀ c ∈ ar.children, c.tag = "command" →
          childDict c ∈ get_commands doc ∧ (c.children = [] → childDict c = []))
      ∧ (∀ name, command_exists doc name = true ↔
          ∃ cEl ∈ doc.findallDesc "command", ∃ nm, cEl.findChild "name" = some nm ∧
            nm.text = name) := by
  intro doc
  refine ⟨by simp [get_commands], ?_, ?_⟩
  · intro ar har c hc htag
    have har' : ar ∈ doc.descendants := (List.mem_filter.mp har).1
    have hcdesc : c ∈ doc.descendants := by
      apply mem_trans_descendants doc ar har'
      rw [descendants_eq]
      exact mem_descendantsOf_of_mem hc
    refine ⟨List.mem_map_of_mem childDict (mem_findallDesc_of hcdesc htag), ?_⟩
    intro hnil
    rw [childDict, hnil]
    rfl
  · intro name
    unfold command_exists
    rw [List.any_eq_true]
    constructor
    · rintro ⟨cEl, hmem, hpred⟩
      refine ⟨cEl, hmem, ?_⟩
      cases hfc : cEl.findChild "name" with
      | none => rw [hfc] at hpred; simp at hpred
      | some nm =>
        rw [hfc] at hpred
        simp at hpred
        exact ⟨nm, rfl, hpred⟩
    · rintro ⟨cEl, hmem, nm, hfc, htext⟩
      refine ⟨cEl, hmem, ?_⟩
      rw [hfc]
      show (nm.text == name) = true
      simp [htext]

/-- C10 witness: in `scenario2` the active-response's childless `command` leaf
contributes an empty entry to `get_commands`, by the theorem instantiated
there. -/
theorem get_commands_any_depth_witness :
    childDict (Element.mk "command" (some "custom-block") []) ∈ get_commands scenario2
    ∧ ((Element.mk "command" (some "custom-block") []).children = [] →
        childDict (Element.mk "command" (some "custom-block") []) = []) :=
  (get_commands_any_depth scenario2).2.1
    (arNode "custom-block" "local" (some 10) (some 300) none none (some "1001,1002,1003"))
    (by decide) (Element.mk "command" (some "custom-block") []) (by decide) (by decide)

end OssecConfig
